import Mathlib

/-!
Verification of the `HttpClient` module (`httpclient.h` / `httpclient.cpp`).

The C++ code is shallowly embedded: strings are `List Char`, the libcurl
transport is abstracted as an oracle (`PerformResult`) describing what
`curl_easy_perform` delivered, boost's JSON decoder is abstracted as a
parameter `readJson : List Char → Option Ptree` (`none` models a thrown
parse exception), and `LOG_ERROR` output is returned explicitly as a list
of message strings.  Fallible C++ paths (exceptions, null-pointer
dereference) are modelled with `Option`.
-/

set_option autoImplicit false

namespace HttpClient

/-- Abbreviation turning a Lean string literal into the `List Char` that
models a C++ `std::string`. -/
def str (s : String) : List Char := s.toList

/-- C `isspace` in the default locale: space, \t, \n, \v, \f, \r. -/
def isSpaceC (c : Char) : Bool :=
  c = ' ' || c = '\t' || c = '\n' || c = '\x0b' || c = '\x0c' || c = '\r'

/-- `HttpClient::ltrim`: erase leading `isspace` characters. -/
def ltrim (s : List Char) : List Char := s.dropWhile isSpaceC

/-- `HttpClient::rtrim`: erase trailing `isspace` characters. -/
def rtrim (s : List Char) : List Char := (s.reverse.dropWhile isSpaceC).reverse

/-- `HttpClient::trim`: `ltrim(rtrim(s))`. -/
def trim (s : List Char) : List Char := ltrim (rtrim s)

/-- `std::map<std::string,std::string>::operator[] = value`: insert the key
with the value, or overwrite the value stored under an existing key.  The
map is modelled as an association list with unique keys; only the key→value
mapping (not std::map's sorted iteration order) is relevant to the claims. -/
def mapInsert (m : List (List Char × List Char)) (k v : List Char) :
    List (List Char × List Char) :=
  match m with
  | [] => [(k, v)]
  | (k', v') :: rest => if k' = k then (k, v) :: rest else (k', v') :: mapInsert rest k v

/-- `HttpClient::response`: status code, body, header map. -/
structure Response where
  code : Int
  body : List Char
  headers : List (List Char × List Char)

/-- `HttpClient::write_callback`: append the delivered chunk (of
`size*nmemb` bytes) to `r->body`, return the full chunk size as consumed. -/
def write_callback (data : List Char) (r : Response) : Response × Nat :=
  ({ r with body := r.body ++ data }, data.length)

/-- `header.find_first_of(":")`: index of the first `':'`, `npos` = `none`. -/
def findFirstColon : List Char → Option Nat
  | [] => none
  | c :: rest => if c = ':' then some 0 else (findFirstColon rest).map (· + 1)

/-- `HttpClient::header_callback`: one raw header line of `size*nmemb`
bytes.  No colon: trim; an empty result is ignored, a non-empty one is
stored mapped to `"present"`.  Colon found: split at the first colon,
store trimmed key → trimmed value.  Every branch returns the full
delivered size as consumed. -/
def header_callback (line : List Char) (r : Response) : Response × Nat :=
  match findFirstColon line with
  | none =>
    let header := trim line
    if header.length = 0 then
      (r, line.length)
    else
      ({ r with headers := mapInsert r.headers header (str "present") }, line.length)
  | some seperator =>
    let key := trim (line.take seperator)
    let value := trim (line.drop (seperator + 1))
    ({ r with headers := mapInsert r.headers key value }, line.length)

/-- `HttpClient::upload_object`: read cursor (`data` is the not-yet-consumed
suffix of the caller's buffer, `length` the remaining byte count). -/
structure UploadObject where
  data : List Char
  length : Nat

/-- `HttpClient::read_callback`: copy `min(remaining, size*nmemb)` bytes
from the cursor into curl's buffer, advance the cursor and decrement the
remaining length by that amount, and return the copied bytes together with
the updated cursor and the copied size. -/
def read_callback (n : Nat) (u : UploadObject) : List Char × UploadObject × Nat :=
  let copy_size := min u.length n
  (u.data.take copy_size,
   { data := u.data.drop copy_size, length := u.length - copy_size },
   copy_size)

/-- Repeated invocations of `read_callback` for a sequence of requested
chunk sizes; collects the bytes handed to the transport in order. -/
def readAll (sizes : List Nat) (u : UploadObject) : List Char × UploadObject :=
  match sizes with
  | [] => ([], u)
  | n :: rest =>
    let step := read_callback n u
    let next := readAll rest step.2.1
    (step.1 ++ next.1, next.2)

/-- `boost::property_tree::ptree`: a data string plus an ordered sequence of
key/subtree children (keys may repeat; lookups find the first match). -/
inductive Ptree : Type where
  | mk : List Char → List (List Char × Ptree) → Ptree

/-- The node's data string (`get_value<std::string>()`). -/
def Ptree.value : Ptree → List Char
  | .mk v _ => v

/-- The node's ordered children. -/
def Ptree.children : Ptree → List (List Char × Ptree)
  | .mk _ cs => cs

/-- Split a boost property-tree path on its `'.'` separator; boost treats
`"a.b"` as key `a` then key `b`, and the empty path as the single empty
key. -/
def splitDots : List Char → List (List Char)
  | [] => [[]]
  | c :: rest =>
    if c = '.' then [] :: splitDots rest
    else
      match splitDots rest with
      | [] => [[c]]
      | seg :: segs => (c :: seg) :: segs

/-- First child of `t` whose key equals `key` (boost returns the first
match among repeated keys). -/
def findChild (t : Ptree) (key : List Char) : Option Ptree :=
  (t.children.find? (fun c => c.1 = key)).map (·.2)

/-- Walk a sequence of path keys down the tree. -/
def getChildSegs : Ptree → List (List Char) → Option Ptree
  | t, [] => some t
  | t, seg :: rest =>
    match findChild t seg with
    | none => none
    | some c => getChildSegs c rest

/-- `ptree::get_child_optional(path)`: resolve a `'.'`-separated path,
`none` when some step is missing. -/
def get_child_optional (t : Ptree) (path : List Char) : Option Ptree :=
  getChildSegs t (splitDots path)

/-- `ptree::get_child(path)` as used in `checkDjangoError`, where it is only
reached under a `ptreeHasChild` guard; the default is never exposed there. -/
def getChildD (t : Ptree) (path : List Char) : Ptree :=
  (get_child_optional t path).getD (Ptree.mk [] [])

/-- `HttpClient::ptreeHasChild` on the dereferenced tree: false iff
`get_child_optional(childName)` is empty. -/
def ptreeHasChild (t : Ptree) (childName : List Char) : Bool :=
  if (get_child_optional t childName).isNone then false else true

/-- `HttpClient::ptreeHasChild` at the call boundary: the `shared_ptr`
argument is dereferenced unconditionally (there is no null test in the
source), so a null pointer leaves the call without a defined result,
modelled as `none`. -/
def ptreeHasChildP (pt : Option Ptree) (childName : List Char) : Option Bool :=
  match pt with
  | none => none
  | some t => some (ptreeHasChild t childName)

/-- `HttpClient::checkDjangoError`: returns the boolean result together
with the `LOG_ERROR` message streams it emits, in order. -/
def checkDjangoError (pt : Option Ptree) : Bool × List (List Char) :=
  match pt with
  | none =>
    (true, [str "JSON Error: null property tree"])
  | some t =>
    if ptreeHasChild t (str "info") && ptreeHasChild t (str "traceback") then
      (true, [str "Django error: " ++ (getChildD t (str "info")).value,
              str "    traceback: " ++ (getChildD t (str "traceback")).value])
    else if ptreeHasChild t (str "djerror") then
      (true, [str "Django error: " ++ (getChildD t (str "djerror")).value])
    else if ptreeHasChild t (str "error") then
      (true, [str "HTTP Error: " ++ (getChildD t (str "error")).value])
    else
      (false, [])

/-- `ostream << int` rendering of a status code. -/
def intStr (i : Int) : List Char := (toString i).toList

/-- `HttpClient::handleNon200`: the `LOG_ERROR` message it emits. -/
def handleNon200 (res : Response) (url : List Char) : List Char :=
  str "When trying url [" ++ url ++ str "], received non-OK code " ++ intStr res.code

/-- `HttpClient::parsePtree`, with boost's `read_json` abstracted as
`readJson` (`none` = the decoder threw).  Returns the emitted `LOG_ERROR`
messages and the outcome: `some tree` for a normal return, `none` when the
decode exception is rethrown to the caller.  On a non-200 status the fresh
tree receives `put("error", "Status <code> when getting <url>")`. -/
def parsePtree (readJson : List Char → Option Ptree) (res : Response)
    (url : List Char) : List (List Char) × Option Ptree :=
  if res.code ≠ 200 then
    ([handleNon200 res url],
     some (Ptree.mk []
       [(str "error",
         Ptree.mk (str "Status " ++ intStr res.code ++ str " when getting " ++ url) [])]))
  else
    match readJson res.body with
    | some pt => ([], some pt)
    | none =>
      ([str "error reading result of URL:" ++ str "\n\t" ++ url ++ str "\n",
        str "response is:" ++ str "\n" ++ res.body ++ str "\n"],
       none)

/-- The per-instance fields of `HttpClient` other than the raw curl handle:
only `_user_pass` (the `_curl` handle's per-call configuration is modelled
separately by `CurlConfig`). -/
structure ClientState where
  user_pass : List Char

/-- `HttpClient::clearAuth`. -/
def clearAuth (_s : ClientState) : ClientState :=
  { user_pass := [] }

/-- `HttpClient::setAuth`: clear, then append `user + ":" + password`. -/
def setAuth (_s : ClientState) (user password : List Char) : ClientState :=
  { user_pass := user ++ str ":" ++ password }

/-- `HttpClient::user_agent`. -/
def user_agent : List Char := str "sopnet/0.10"

/-- The curl handle options set by a verb method before
`curl_easy_perform`; `curl_easy_init`/`curl_easy_reset` leave every option
unset. -/
structure CurlConfig where
  httpAuthBasic : Bool
  userpwd : Option (List Char)
  userAgent : Option (List Char)
  url : Option (List Char)
  post : Bool
  postFields : Option (List Char)
  postFieldSize : Option Nat
  putUpload : Bool
  infileSize : Option Nat
  customRequest : Option (List Char)
  httpHeader : List (List Char)

/-- The freshly reset handle configuration. -/
def emptyConfig : CurlConfig :=
  { httpAuthBasic := false, userpwd := none, userAgent := none, url := none,
    post := false, postFields := none, postFieldSize := none,
    putUpload := false, infileSize := none, customRequest := none,
    httpHeader := [] }

/-- Shared option block of every verb method: basic auth when `_user_pass`
is non-empty, the fixed user agent, and the query URL. -/
def commonConfig (s : ClientState) (url : List Char) : CurlConfig :=
  let cfg := emptyConfig
  let cfg := if s.user_pass.length > 0 then
    { cfg with httpAuthBasic := true, userpwd := some s.user_pass } else cfg
  let cfg := { cfg with userAgent := some user_agent }
  { cfg with url := some url }

/-- Oracle for one `curl_easy_perform` call: the returned `CURLcode`
(0 = `CURLE_OK`), the text left in the `CURLOPT_ERRORBUFFER`, the body
chunks pushed through `write_callback`, the header lines pushed through
`header_callback`, and the `CURLINFO_RESPONSE_CODE` value. -/
structure PerformResult where
  res : Nat
  errorDetail : List Char
  bodyChunks : List (List Char)
  headerLines : List (List Char)
  httpCode : Int

/-- What `curl_easy_perform` does to the response record through the two
registered callbacks. -/
def performDeliver (pr : PerformResult) (r : Response) : Response :=
  let r := pr.bodyChunks.foldl (fun acc c => (write_callback c acc).1) r
  pr.headerLines.foldl (fun acc l => (header_callback l acc).1) r

/-- `HttpClient::checkCurlError`, with `curl_easy_strerror` abstracted as
`strerror`: on a non-OK code, overwrite the body with the diagnostic
string, set the code to `-1` and report the error. -/
def checkCurlError (strerror : Nat → List Char) (res : Nat)
    (curlErrorBuffer : List Char) (ret : Response) : Bool × Response :=
  if res ≠ 0 then
    (true,
     { ret with
       body := str "Failed to query. CURL error: " ++ strerror res
         ++ str " DETAIL: " ++ curlErrorBuffer,
       code := -1 })
  else
    (false, ret)

/-- Outcome of one verb method: the handle configuration in effect at
`curl_easy_perform` time (the handle itself is reset before returning),
the response record handed back, and the instance state after the call. -/
structure VerbOutcome where
  config : CurlConfig
  resp : Response
  state : ClientState

/-- The tail every verb method shares: run the transfer, and either take
the curl-error early return or store the retrieved HTTP status code. -/
def finishVerb (strerror : Nat → List Char) (pr : PerformResult)
    (ret : Response) : Response :=
  let ret := performDeliver pr ret
  match checkCurlError strerror pr.res pr.errorDetail ret with
  | (true, ret2) => ret2
  | (false, ret2) => { ret2 with code := pr.httpCode }

/-- `HttpClient::get`. -/
def get (strerror : Nat → List Char) (self : ClientState) (url : List Char)
    (pr : PerformResult) : VerbOutcome :=
  let ret : Response := { code := 0, body := [], headers := [] }
  let cfg := commonConfig self url
  { config := cfg, resp := finishVerb strerror pr ret, state := self }

/-- `HttpClient::post`: additionally `CURLOPT_POST`, the post fields with
an explicit size, and a `Content-Type` header built from `ctype`. -/
def post (strerror : Nat → List Char) (self : ClientState)
    (url ctype data : List Char) (pr : PerformResult) : VerbOutcome :=
  let ret : Response := { code := 0, body := [], headers := [] }
  let ctype_header := str "Content-Type: " ++ ctype
  let cfg := commonConfig self url
  let cfg := { cfg with
    post := true
    postFields := some data
    postFieldSize := some data.length
    httpHeader := [ctype_header] }
  { config := cfg, resp := finishVerb strerror pr ret, state := self }

/-- `HttpClient::put`: `CURLOPT_PUT`/`CURLOPT_UPLOAD` with a
`read_callback` cursor over `data`, the declared upload size, and the same
`Content-Type` header construction as `post`. -/
def put (strerror : Nat → List Char) (self : ClientState)
    (url ctype data : List Char) (pr : PerformResult) : VerbOutcome :=
  let ret : Response := { code := 0, body := [], headers := [] }
  let ctype_header := str "Content-Type: " ++ ctype
  let _up_obj : UploadObject := { data := data, length := data.length }
  let cfg := commonConfig self url
  let cfg := { cfg with
    putUpload := true
    infileSize := some data.length
    httpHeader := [ctype_header] }
  { config := cfg, resp := finishVerb strerror pr ret, state := self }

/-- `HttpClient::del`: `CURLOPT_CUSTOMREQUEST "DELETE"`. -/
def del (strerror : Nat → List Char) (self : ClientState) (url : List Char)
    (pr : PerformResult) : VerbOutcome :=
  let ret : Response := { code := 0, body := [], headers := [] }
  let cfg := commonConfig self url
  let cfg := { cfg with customRequest := some (str "DELETE") }
  { config := cfg, resp := finishVerb strerror pr ret, state := self }

/-- `HttpClient::getPropertyTree`: GET, then parse. -/
def getPropertyTree (strerror : Nat → List Char)
    (readJson : List Char → Option Ptree) (self : ClientState)
    (url : List Char) (pr : PerformResult) : List (List Char) × Option Ptree :=
  parsePtree readJson (get strerror self url pr).resp url

/-- `HttpClient::postPropertyTree`: POST as
`application/x-www-form-urlencoded`, then parse. -/
def postPropertyTree (strerror : Nat → List Char)
    (readJson : List Char → Option Ptree) (self : ClientState)
    (url data : List Char) (pr : PerformResult) : List (List Char) × Option Ptree :=
  parsePtree readJson
    (post strerror self url (str "application/x-www-form-urlencoded") data pr).resp url

/-- Loop body of `HttpClient::ptreeVector`: push `get_value<T>` of each
child in order (coercion abstracted as `coerce`, `none` = it threw),
incrementing the count. -/
def ptreeVectorAux {α : Type} (coerce : List Char → Option α) :
    List (List Char × Ptree) → List α → Nat → Option (List α × Nat)
  | [], vect, count => some (vect, count)
  | c :: rest, vect, count =>
    match coerce c.2.value with
    | none => none
    | some v => ptreeVectorAux coerce rest (vect ++ [v]) (count + 1)

/-- `HttpClient::ptreeVector`: append the coerced value of every direct
child of `pt` to `vect`, returning the extended vector and the count;
`none` when a coercion throws. -/
def ptreeVector {α : Type} (coerce : List Char → Option α) (pt : Ptree)
    (vect : List α) : Option (List α × Nat) :=
  ptreeVectorAux coerce pt.children vect 0

/-- `needle` occurs at the head of `hay`. -/
def leadsWith : List Char → List Char → Bool
  | [], _ => true
  | _ :: _, [] => false
  | a :: as, b :: bs => a = b && leadsWith as bs

/-- `needle` occurs contiguously somewhere in `hay`. -/
def containsSub (needle hay : List Char) : Bool :=
  leadsWith needle hay ||
    match hay with
    | [] => false
    | _ :: rest => containsSub needle rest

/-- The spec's notion of a direct child: `name` is literally the key of one
of the tree's immediate children. -/
def isDirectChild (t : Ptree) (name : List Char) : Bool :=
  t.children.any (fun c => c.1 = name)

/-- Spec-side view of `ptreeVector`: coerce the value of every child in
order, failing as soon as one coercion fails. -/
def coerceAll {α : Type} (coerce : List Char → Option α) :
    List (List Char × Ptree) → Option (List α)
  | [] => some []
  | c :: rest =>
    match coerce c.2.value with
    | none => none
    | some v => (coerceAll coerce rest).map (v :: ·)

/-! ## Helper lemmas -/

theorem findFirstColon_eq_none : ∀ (line : List Char), ':' ∉ line →
    findFirstColon line = none
  | [], _ => rfl
  | c :: rest, h => by
    have hc : ¬ c = ':' := fun hc => h (by simp [hc])
    have hr : ':' ∉ rest := fun hr => h (List.mem_cons_of_mem _ hr)
    simp [findFirstColon, hc, findFirstColon_eq_none rest hr]

theorem findFirstColon_split (pre post : List Char) (h : ':' ∉ pre) :
    findFirstColon (pre ++ ':' :: post) = some pre.length := by
  induction pre with
  | nil => simp [findFirstColon]
  | cons c rest ih =>
    have hc : ¬ c = ':' := fun hc => h (by simp [hc])
    have hr : ':' ∉ rest := fun hr => h (List.mem_cons_of_mem _ hr)
    simp [findFirstColon, hc, ih hr]

theorem lookup_mapInsert_self (m : List (List Char × List Char))
    (k v : List Char) : List.lookup k (mapInsert m k v) = some v := by
  induction m with
  | nil => simp [mapInsert, List.lookup]
  | cons p rest ih =>
    obtain ⟨k', v'⟩ := p
    by_cases h : k' = k
    · simp [mapInsert, h, List.lookup]
    · simp only [mapInsert, h, if_false, List.lookup]
      have : (k == k') = false := by
        simp [Ne.symm h]
      simp [this, ih]

theorem lookup_mapInsert_ne (m : List (List Char × List Char))
    (k k' v : List Char) (h : k' ≠ k) :
    List.lookup k' (mapInsert m k v) = List.lookup k' m := by
  induction m with
  | nil =>
    have hbe : (k' == k) = false := beq_eq_false_iff_ne.mpr h
    simp [mapInsert, List.lookup, hbe]
  | cons p rest ih =>
    obtain ⟨ka, va⟩ := p
    by_cases hk : ka = k
    · subst hk
      have hbe : (k' == ka) = false := beq_eq_false_iff_ne.mpr h
      simp [mapInsert, List.lookup, hbe]
    · simp only [mapInsert, hk, if_false, List.lookup]
      cases hbe : (k' == ka) <;> simp [ih]

theorem splitDots_no_dot : ∀ (name : List Char), '.' ∉ name →
    splitDots name = [name]
  | [], _ => rfl
  | c :: rest, h => by
    have hc : ¬ c = '.' := fun hc => h (by simp [hc])
    have hr : '.' ∉ rest := fun hr => h (List.mem_cons_of_mem _ hr)
    simp [splitDots, hc, splitDots_no_dot rest hr]

theorem findChild_isSome (t : Ptree) (name : List Char) :
    (findChild t name).isSome = isDirectChild t name := by
  rw [findChild, isDirectChild]
  induction t.children with
  | nil => rfl
  | cons c rest ih =>
    by_cases hc : c.1 = name
    · simp [List.find?_cons, List.any_cons, hc]
    · simp [List.find?_cons, List.any_cons, hc, ih]

theorem readAll_invariant : ∀ (sizes : List Nat) (u : UploadObject),
    u.length = u.data.length →
    (readAll sizes u).2.length = (readAll sizes u).2.data.length
    ∧ (readAll sizes u).1 ++ (readAll sizes u).2.data = u.data
    ∧ (readAll sizes u).2.length = u.length - sizes.sum
  | [], u, h => by simpa [readAll] using h
  | n :: rest, u, h => by
    have hcopy : min u.length n ≤ u.data.length := h ▸ min_le_left _ _
    have hnext : (u.length - min u.length n)
        = (u.data.drop (min u.length n)).length := by
      simp [List.length_drop, h]
    obtain ⟨ih1, ih2, ih3⟩ := readAll_invariant rest
      ⟨u.data.drop (min u.length n), u.length - min u.length n⟩ hnext
    refine ⟨?_, ?_, ?_⟩
    · simpa [readAll, read_callback] using ih1
    · have : u.data.take (min u.length n) ++ u.data.drop (min u.length n)
        = u.data := List.take_append_drop _ _
      simp only [readAll, read_callback, List.append_assoc]
      rw [ih2]
      exact this
    · have hmin : u.length - min u.length n = u.length - n := by omega
      simp only [readAll, read_callback]
      rw [ih3, hmin, List.sum_cons, Nat.sub_sub, Nat.add_comm]

theorem coerceAll_length {α : Type} (coerce : List Char → Option α) :
    ∀ (cs : List (List Char × Ptree)) (vs : List α),
    coerceAll coerce cs = some vs → vs.length = cs.length
  | [], vs, h => by
    simp [coerceAll] at h
    simp [← h]
  | c :: rest, vs, h => by
    cases hc : coerce c.2.value with
    | none => simp [coerceAll, hc] at h
    | some v =>
      simp only [coerceAll, hc] at h
      cases hr : coerceAll coerce rest with
      | none => simp [hr] at h
      | some ws =>
        rw [hr] at h
        simp at h
        simp [← h, coerceAll_length coerce rest ws hr]

theorem ptreeVectorAux_eq {α : Type} (coerce : List Char → Option α) :
    ∀ (cs : List (List Char × Ptree)) (vect : List α) (count : Nat),
    ptreeVectorAux coerce cs vect count
      = (coerceAll coerce cs).map (fun vs => (vect ++ vs, count + cs.length))
  | [], vect, count => by simp [ptreeVectorAux, coerceAll]
  | c :: rest, vect, count => by
    cases hc : coerce c.2.value with
    | none => simp [ptreeVectorAux, coerceAll, hc]
    | some v =>
      simp only [ptreeVectorAux, coerceAll, hc,
        ptreeVectorAux_eq coerce rest (vect ++ [v]) (count + 1)]
      cases coerceAll coerce rest with
      | none => simp
      | some ws => simp [List.append_assoc]; omega

/-! ## Claim theorems -/

/-- Claim C2: for every response with status code not equal to 200,
`parsePtree` (and hence `getPropertyTree` and `postPropertyTree`, which are
`parsePtree` after `get`/`post`) logs the failure and returns, as a normal
value, a tree whose only content is the single key `error` mapped to
`"Status <code> when getting <url>"`, discarding the original response
body. -/
theorem parsePtree_nonOk (readJson : List Char → Option Ptree)
    (res : Response) (url : List Char) (h : res.code ≠ 200) :
    parsePtree readJson res url
      = ([str "When trying url [" ++ url ++ str "], received non-OK code "
            ++ intStr res.code],
         some (Ptree.mk []
           [(str "error",
             Ptree.mk (str "Status " ++ intStr res.code ++ str " when getting " ++ url)
               [])]))
    ∧ (∀ b, parsePtree readJson { res with body := b } url
        = parsePtree readJson res url)
    ∧ (∀ strerror self pr, getPropertyTree strerror readJson self url pr
        = parsePtree readJson (get strerror self url pr).resp url)
    ∧ (∀ strerror self data pr, postPropertyTree strerror readJson self url data pr
        = parsePtree readJson
            (post strerror self url (str "application/x-www-form-urlencoded") data pr).resp
            url) := by
  refine ⟨?_, ?_, fun _ _ _ => rfl, fun _ _ _ _ => rfl⟩
  · simp [parsePtree, handleNon200, h]
  · intro b
    simp [parsePtree, h, handleNon200]

/-- Witness for C2 at a concrete 500 response. -/
theorem parsePtree_nonOk_witness :
    ((500 : Int) ≠ 200)
    ∧ parsePtree (fun _ => none) ⟨500, str "oops", []⟩ (str "http://h/u")
      = ([str "When trying url [" ++ str "http://h/u"
            ++ str "], received non-OK code " ++ intStr 500],
         some (Ptree.mk []
           [(str "error",
             Ptree.mk (str "Status " ++ intStr 500 ++ str " when getting "
               ++ str "http://h/u") [])])) :=
  ⟨by decide,
   (parsePtree_nonOk (fun _ => none) ⟨500, str "oops", []⟩ (str "http://h/u")
     (by decide)).1⟩

/-- Claim C3: for every 200 response whose body fails to decode,
`parsePtree` (and hence `getPropertyTree` and `postPropertyTree`) logs the
URL and the raw body and re-signals the failure to the caller (modelled as
`none`, the rethrown exception); a decodable body yields the decoded
tree. -/
theorem parsePtree_decode (readJson : List Char → Option Ptree)
    (res : Response) (url : List Char) (h : res.code = 200) :
    (readJson res.body = none →
      parsePtree readJson res url
        = ([str "error reading result of URL:" ++ str "\n\t" ++ url ++ str "\n",
            str "response is:" ++ str "\n" ++ res.body ++ str "\n"], none))
    ∧ (∀ t, readJson res.body = some t →
        parsePtree readJson res url = ([], some t))
    ∧ (∀ strerror self pr, getPropertyTree strerror readJson self url pr
        = parsePtree readJson (get strerror self url pr).resp url)
    ∧ (∀ strerror self data pr, postPropertyTree strerror readJson self url data pr
        = parsePtree readJson
            (post strerror self url (str "application/x-www-form-urlencoded") data pr).resp
            url) := by
  refine ⟨?_, ?_, fun _ _ _ => rfl, fun _ _ _ _ => rfl⟩
  · intro hj
    simp [parsePtree, h, hj]
  · intro t hj
    simp [parsePtree, h, hj]

/-- Witness for C3 at a concrete undecodable 200 response. -/
theorem parsePtree_decode_witness :
    ((200 : Int) = 200)
    ∧ parsePtree (fun _ => none) ⟨200, str "notjson", []⟩ (str "http://h/u")
      = ([str "error reading result of URL:" ++ str "\n\t" ++ str "http://h/u" ++ str "\n",
          str "response is:" ++ str "\n" ++ str "notjson" ++ str "\n"], none) :=
  ⟨rfl,
   (parsePtree_decode (fun _ => none) ⟨200, str "notjson", []⟩ (str "http://h/u")
     rfl).1 rfl⟩

/-- Claim C4: `checkDjangoError` answers `true` for a null tree, then
inspects `info`+`traceback`, then `djerror`, then `error`, returning `true`
at the first matching branch (the emitted log identifies the branch taken),
and `false` when no shape matches. -/
theorem checkDjangoError_priority :
    (checkDjangoError none = (true, [str "JSON Error: null property tree"]))
    ∧ (∀ t, (ptreeHasChild t (str "info") && ptreeHasChild t (str "traceback")) = true →
        checkDjangoError (some t)
          = (true, [str "Django error: " ++ (getChildD t (str "info")).value,
                    str "    traceback: " ++ (getChildD t (str "traceback")).value]))
    ∧ (∀ t, (ptreeHasChild t (str "info") && ptreeHasChild t (str "traceback")) = false →
        ptreeHasChild t (str "djerror") = true →
        checkDjangoError (some t)
          = (true, [str "Django error: " ++ (getChildD t (str "djerror")).value]))
    ∧ (∀ t, (ptreeHasChild t (str "info") && ptreeHasChild t (str "traceback")) = false →
        ptreeHasChild t (str "djerror") = false →
        ptreeHasChild t (str "error") = true →
        checkDjangoError (some t)
          = (true, [str "HTTP Error: " ++ (getChildD t (str "error")).value]))
    ∧ (∀ t, (ptreeHasChild t (str "info") && ptreeHasChild t (str "traceback")) = false →
        ptreeHasChild t (str "djerror") = false →
        ptreeHasChild t (str "error") = false →
        checkDjangoError (some t) = (false, [])) := by
  refine ⟨rfl, ?_, ?_, ?_, ?_⟩
  · intro t h1
    simp [checkDjangoError, h1]
  · intro t h1 h2
    simp [checkDjangoError, h1, h2]
  · intro t h1 h2 h3
    simp [checkDjangoError, h1, h2, h3]
  · intro t h1 h2 h3
    simp [checkDjangoError, h1, h2, h3]

/-- Witness for C4: a tree carrying both the `djerror` and `error` shapes
takes the `djerror` branch. -/
theorem checkDjangoError_priority_witness :
    ((ptreeHasChild (Ptree.mk [] [(str "djerror", Ptree.mk (str "d") []),
        (str "error", Ptree.mk (str "e") [])]) (str "info")
      && ptreeHasChild (Ptree.mk [] [(str "djerror", Ptree.mk (str "d") []),
        (str "error", Ptree.mk (str "e") [])]) (str "traceback")) = false)
    ∧ (ptreeHasChild (Ptree.mk [] [(str "djerror", Ptree.mk (str "d") []),
        (str "error", Ptree.mk (str "e") [])]) (str "djerror") = true)
    ∧ checkDjangoError (some (Ptree.mk [] [(str "djerror", Ptree.mk (str "d") []),
        (str "error", Ptree.mk (str "e") [])]))
      = (true, [str "Django error: "
          ++ (getChildD (Ptree.mk [] [(str "djerror", Ptree.mk (str "d") []),
                (str "error", Ptree.mk (str "e") [])]) (str "djerror")).value]) :=
  ⟨by decide, by decide,
   checkDjangoError_priority.2.2.1
     (Ptree.mk [] [(str "djerror", Ptree.mk (str "d") []),
       (str "error", Ptree.mk (str "e") [])])
     (by decide) (by decide)⟩

/-- Claim C10: `ptreeHasChild` dereferences its shared-pointer argument
unconditionally, so it has a defined result exactly for non-null trees,
while `checkDjangoError` tests for null first and handles it. -/
theorem ptreeHasChild_requires_nonNull :
    (∀ name, ptreeHasChildP none name = none)
    ∧ (∀ t name, ptreeHasChildP (some t) name = some (ptreeHasChild t name))
    ∧ checkDjangoError none = (true, [str "JSON Error: null property tree"]) :=
  ⟨fun _ => rfl, fun _ _ => rfl, rfl⟩

/-- Claim C9: `ptreeVector` appends the coerced value of every direct
child, in the tree's child order, to the output vector and returns the
number appended, which equals the number of direct children; a coercion
failure for any element propagates as a failure. -/
theorem ptreeVector_spec {α : Type} (coerce : List Char → Option α)
    (pt : Ptree) (vect : List α) :
    ptreeVector coerce pt vect
      = (coerceAll coerce pt.children).map
          (fun vs => (vect ++ vs, pt.children.length))
    ∧ (∀ vs, coerceAll coerce pt.children = some vs →
        vs.length = pt.children.length
        ∧ ptreeVector coerce pt vect = some (vect ++ vs, pt.children.length))
    ∧ (coerceAll coerce pt.children = none →
        ptreeVector coerce pt vect = none) := by
  have heq : ptreeVector coerce pt vect
      = (coerceAll coerce pt.children).map
          (fun vs => (vect ++ vs, pt.children.length)) := by
    rw [ptreeVector, ptreeVectorAux_eq]
    simp
  refine ⟨heq, ?_, ?_⟩
  · intro vs hvs
    exact ⟨coerceAll_length coerce pt.children vs hvs, by rw [heq, hvs]; rfl⟩
  · intro hnone
    rw [heq, hnone]
    rfl

/-- Witness for C9 on a two-element array tree with an identity coercion. -/
theorem ptreeVector_spec_witness :
    coerceAll (fun v => some v)
        (Ptree.mk [] [(str "0", Ptree.mk (str "1") []),
          (str "1", Ptree.mk (str "2") [])]).children
      = some [str "1", str "2"]
    ∧ ([str "1", str "2"].length
        = (Ptree.mk [] [(str "0", Ptree.mk (str "1") []),
            (str "1", Ptree.mk (str "2") [])]).children.length
       ∧ ptreeVector (fun v => some v)
           (Ptree.mk [] [(str "0", Ptree.mk (str "1") []),
             (str "1", Ptree.mk (str "2") [])]) [str "z"]
         = some ([str "z"] ++ [str "1", str "2"],
             (Ptree.mk [] [(str "0", Ptree.mk (str "1") []),
               (str "1", Ptree.mk (str "2") [])]).children.length)) :=
  ⟨rfl,
   (ptreeVector_spec (fun v => some v)
       (Ptree.mk [] [(str "0", Ptree.mk (str "1") []),
         (str "1", Ptree.mk (str "2") [])]) [str "z"]).2.1
     [str "1", str "2"] rfl⟩

/-- Claim C8: `setAuth` stores `user ++ ":" ++ password` as the credential
string and every verb call configures basic authentication from it while it
is non-empty; `clearAuth` empties it, after which no authentication is
configured; and no verb method modifies the credential string. -/
theorem auth_spec :
    (∀ s user password, (setAuth s user password).user_pass
        = user ++ str ":" ++ password)
    ∧ (∀ s, (clearAuth s).user_pass = [])
    ∧ (∀ s url, 0 < s.user_pass.length →
        (commonConfig s url).httpAuthBasic = true
        ∧ (commonConfig s url).userpwd = some s.user_pass)
    ∧ (∀ s user password url,
        (commonConfig (setAuth s user password) url).httpAuthBasic = true
        ∧ (commonConfig (setAuth s user password) url).userpwd
            = some (user ++ str ":" ++ password))
    ∧ (∀ s url, (commonConfig (clearAuth s) url).httpAuthBasic = false
        ∧ (commonConfig (clearAuth s) url).userpwd = none)
    ∧ (∀ strerror s url ctype data pr,
        (get strerror s url pr).state = s
        ∧ (post strerror s url ctype data pr).state = s
        ∧ (put strerror s url ctype data pr).state = s
        ∧ (del strerror s url pr).state = s)
    ∧ (∀ strerror s url ctype data pr,
        (get strerror s url pr).config = commonConfig s url
        ∧ (post strerror s url ctype data pr).config.httpAuthBasic
            = (commonConfig s url).httpAuthBasic
        ∧ (post strerror s url ctype data pr).config.userpwd
            = (commonConfig s url).userpwd
        ∧ (put strerror s url ctype data pr).config.httpAuthBasic
            = (commonConfig s url).httpAuthBasic
        ∧ (put strerror s url ctype data pr).config.userpwd
            = (commonConfig s url).userpwd
        ∧ (del strerror s url pr).config.httpAuthBasic
            = (commonConfig s url).httpAuthBasic
        ∧ (del strerror s url pr).config.userpwd
            = (commonConfig s url).userpwd) := by
  refine ⟨fun _ _ _ => rfl, fun _ => rfl, ?_, ?_, ?_, ?_, ?_⟩
  · intro s url hlen
    simp [commonConfig, hlen]
  · intro s user password url
    have hone : 0 < (str ":").length := by decide
    constructor <;> simp [commonConfig, setAuth, hone]
  · intro s url
    constructor <;> simp [commonConfig, clearAuth, emptyConfig]
  · intro strerror s url ctype data pr
    exact ⟨rfl, rfl, rfl, rfl⟩
  · intro strerror s url ctype data pr
    exact ⟨rfl, rfl, rfl, rfl, rfl, rfl, rfl⟩

/-- Witness for C8 with a concrete credential pair. -/
theorem auth_spec_witness :
    (0 < (str "u:p").length)
    ∧ (commonConfig ⟨str "u:p"⟩ (str "http://h")).httpAuthBasic = true
    ∧ (commonConfig ⟨str "u:p"⟩ (str "http://h")).userpwd = some (str "u:p") :=
  ⟨by decide,
   (auth_spec.2.2.1 ⟨str "u:p"⟩ (str "http://h") (by decide)).1,
   (auth_spec.2.2.1 ⟨str "u:p"⟩ (str "http://h") (by decide)).2⟩

/-- Claim C5: a header line containing a colon is split at its first colon
into a trimmed name and a trimmed value (a value containing further colons
stays intact) and stored, overwriting any prior value for that name; a
colonless line that trims to empty is ignored; a colonless line that trims
to non-empty is stored mapped to the literal `"present"`; and every branch
reports the full delivered size as consumed. -/
theorem header_callback_spec :
    (∀ (pre post : List Char) (r : Response), ':' ∉ pre →
      header_callback (pre ++ ':' :: post) r
        = ({ r with headers := mapInsert r.headers (trim pre) (trim post) },
           (pre ++ ':' :: post).length))
    ∧ (∀ (line : List Char) (r : Response), ':' ∉ line → trim line = [] →
      header_callback line r = (r, line.length))
    ∧ (∀ (line : List Char) (r : Response), ':' ∉ line → trim line ≠ [] →
      header_callback line r
        = ({ r with headers := mapInsert r.headers (trim line) (str "present") },
           line.length))
    ∧ (∀ m k v, List.lookup k (mapInsert m k v) = some v)
    ∧ (∀ m k k' v, k' ≠ k →
        List.lookup k' (mapInsert m k v) = List.lookup k' m) := by
  refine ⟨?_, ?_, ?_, lookup_mapInsert_self, lookup_mapInsert_ne⟩
  · intro pre post r h
    have htake : (pre ++ ':' :: post).take pre.length = pre :=
      List.take_left pre (':' :: post)
    have hdrop : (pre ++ ':' :: post).drop (pre.length + 1) = post := by
      have hform : pre ++ ':' :: post = (pre ++ [':']) ++ post := by
        simp
      have hlen : (pre ++ [':']).length = pre.length + 1 := by
        simp
      rw [hform, ← hlen, List.drop_left]
    simp only [header_callback, findFirstColon_split pre post h, htake, hdrop]
  · intro line r h htrim
    rw [header_callback, findFirstColon_eq_none line h]
    simp [htrim]
  · intro line r h htrim
    rw [header_callback, findFirstColon_eq_none line h]
    have : ¬ (trim line).length = 0 := by
      simpa [List.length_eq_zero] using htrim
    simp [this]

/-- Witness for C5: a line whose value itself contains a colon, and a
colonless status line. -/
theorem header_callback_spec_witness :
    (':' ∉ str "X-Y")
    ∧ header_callback (str "X-Y" ++ ':' :: str " a:b ") ⟨0, [], []⟩
      = ({ code := 0, body := [],
           headers := mapInsert [] (trim (str "X-Y")) (trim (str " a:b ")) },
         (str "X-Y" ++ ':' :: str " a:b ").length)
    ∧ (':' ∉ str "HTTP/1.1 200 OK")
    ∧ header_callback (str "HTTP/1.1 200 OK") ⟨0, [], []⟩
      = ({ code := 0, body := [],
           headers := mapInsert [] (trim (str "HTTP/1.1 200 OK")) (str "present") },
         (str "HTTP/1.1 200 OK").length) :=
  ⟨by decide,
   header_callback_spec.1 (str "X-Y") (str " a:b ") ⟨0, [], []⟩ (by decide),
   by decide,
   header_callback_spec.2.2.1 (str "HTTP/1.1 200 OK") ⟨0, [], []⟩ (by decide)
     (by decide)⟩

/-- Claim C7: each `read_callback` invocation requesting `n` bytes hands
over exactly `min(n, remaining)` bytes from the cursor position, advances
the cursor and decrements the remaining length by that amount, and returns
that count (0 once the remaining length is 0); cumulatively, any sequence
of requested sizes transfers a prefix of the original bytes in order, and
transfers all of them once the requested sizes cover the original
length. -/
theorem read_callback_spec :
    (∀ (u : UploadObject) (n : Nat), u.length = u.data.length →
      (read_callback n u).2.2 = min u.length n
      ∧ (read_callback n u).1 = u.data.take (min u.length n)
      ∧ (read_callback n u).1.length = min u.length n
      ∧ (read_callback n u).2.1.data = u.data.drop (min u.length n)
      ∧ (read_callback n u).2.1.length = u.length - min u.length n
      ∧ (u.length = 0 → (read_callback n u).2.2 = 0))
    ∧ (∀ (u : UploadObject) (sizes : List Nat), u.length = u.data.length →
      (readAll sizes u).1 ++ (readAll sizes u).2.data = u.data
      ∧ (u.length ≤ sizes.sum → (readAll sizes u).1 = u.data)) := by
  constructor
  · intro u n h
    refine ⟨rfl, rfl, ?_, rfl, rfl, ?_⟩
    · simp [read_callback, ← h]
    · intro h0
      simp [read_callback, h0]
  · intro u sizes h
    obtain ⟨hlen, happ, hsum⟩ := readAll_invariant sizes u h
    refine ⟨happ, ?_⟩
    intro hcover
    have hdl : (readAll sizes u).2.data.length = 0 := by omega
    have hdata : (readAll sizes u).2.data = [] := List.length_eq_zero.mp hdl
    rw [← happ, hdata, List.append_nil]

/-- Witness for C7: an 11-byte upload drained by the request sizes
3, 0, 5, 100. -/
theorem read_callback_spec_witness :
    ((⟨str "hello world", 11⟩ : UploadObject).length
        = (⟨str "hello world", 11⟩ : UploadObject).data.length)
    ∧ (readAll [3, 0, 5, 100] ⟨str "hello world", 11⟩).1
        ++ (readAll [3, 0, 5, 100] ⟨str "hello world", 11⟩).2.data
      = (⟨str "hello world", 11⟩ : UploadObject).data
    ∧ ((⟨str "hello world", 11⟩ : UploadObject).length ≤ [3, 0, 5, 100].sum →
        (readAll [3, 0, 5, 100] ⟨str "hello world", 11⟩).1
          = (⟨str "hello world", 11⟩ : UploadObject).data) :=
  ⟨by decide,
   (read_callback_spec.2 ⟨str "hello world", 11⟩ [3, 0, 5, 100] (by decide)).1,
   (read_callback_spec.2 ⟨str "hello world", 11⟩ [3, 0, 5, 100] (by decide)).2⟩

/-- Claim C1 as stated is false at a concrete transport failure: the
returned body is prefixed by `"Failed to query. CURL error: "` and the
stock description is followed by `" DETAIL: "` — there is no colon before
`DETAIL`, so the body neither equals the claimed
`description ++ ": DETAIL: " ++ detail` nor contains `": DETAIL: "` at
all. -/
theorem claim1_refuted :
    (get (fun _ => str "Couldn't connect to server") ⟨[]⟩ (str "http://h/u")
        ⟨7, str "boom", [], [], 0⟩).resp.body
      = str "Failed to query. CURL error: Couldn't connect to server DETAIL: boom"
    ∧ containsSub (str ": DETAIL: ")
        ((get (fun _ => str "Couldn't connect to server") ⟨[]⟩ (str "http://h/u")
          ⟨7, str "boom", [], [], 0⟩).resp.body) = false
    ∧ (get (fun _ => str "Couldn't connect to server") ⟨[]⟩ (str "http://h/u")
        ⟨7, str "boom", [], [], 0⟩).resp.body
      ≠ str "Couldn't connect to server" ++ str ": DETAIL: " ++ str "boom" :=
  ⟨by decide, by decide, by decide⟩

/-- Claim C1 (amended): for every verb method, when the transport reports a
failure the returned response has code `-1` and body
`"Failed to query. CURL error: " ++ description ++ " DETAIL: " ++ detail`,
the HTTP status code is not retrieved (the result is independent of it),
and the error is returned as data. -/
theorem transportFailure_response (strerror : Nat → List Char)
    (self : ClientState) (url ctype data : List Char) (pr : PerformResult)
    (h : pr.res ≠ 0) :
    ((get strerror self url pr).resp.code = -1
      ∧ (get strerror self url pr).resp.body
          = str "Failed to query. CURL error: " ++ strerror pr.res
            ++ str " DETAIL: " ++ pr.errorDetail)
    ∧ ((post strerror self url ctype data pr).resp.code = -1
      ∧ (post strerror self url ctype data pr).resp.body
          = str "Failed to query. CURL error: " ++ strerror pr.res
            ++ str " DETAIL: " ++ pr.errorDetail)
    ∧ ((put strerror self url ctype data pr).resp.code = -1
      ∧ (put strerror self url ctype data pr).resp.body
          = str "Failed to query. CURL error: " ++ strerror pr.res
            ++ str " DETAIL: " ++ pr.errorDetail)
    ∧ ((del strerror self url pr).resp.code = -1
      ∧ (del strerror self url pr).resp.body
          = str "Failed to query. CURL error: " ++ strerror pr.res
            ++ str " DETAIL: " ++ pr.errorDetail)
    ∧ (∀ c : Int,
        (get strerror self url { pr with httpCode := c }).resp
          = (get strerror self url pr).resp
        ∧ (post strerror self url ctype data { pr with httpCode := c }).resp
          = (post strerror self url ctype data pr).resp
        ∧ (put strerror self url ctype data { pr with httpCode := c }).resp
          = (put strerror self url ctype data pr).resp
        ∧ (del strerror self url { pr with httpCode := c }).resp
          = (del strerror self url pr).resp) := by
  have hfin : ∀ ret : Response,
      finishVerb strerror pr ret
        = { performDeliver pr ret with
            body := str "Failed to query. CURL error: " ++ strerror pr.res
              ++ str " DETAIL: " ++ pr.errorDetail,
            code := -1 } := by
    intro ret
    simp [finishVerb, checkCurlError, h]
  have hind : ∀ (c : Int) (ret : Response),
      finishVerb strerror { pr with httpCode := c } ret
        = finishVerb strerror pr ret := by
    intro c ret
    simp [finishVerb, checkCurlError, performDeliver, h]
  refine ⟨⟨?_, ?_⟩, ⟨?_, ?_⟩, ⟨?_, ?_⟩, ⟨?_, ?_⟩, ?_⟩
  · simp [get, hfin]
  · simp [get, hfin]
  · simp [post, hfin]
  · simp [post, hfin]
  · simp [put, hfin]
  · simp [put, hfin]
  · simp [del, hfin]
  · simp [del, hfin]
  · intro c
    exact ⟨by simp [get, hind], by simp [post, hind],
           by simp [put, hind], by simp [del, hind]⟩

/-- Witness for the amended C1 at a concrete failing GET. -/
theorem transportFailure_response_witness :
    ((7 : Nat) ≠ 0)
    ∧ (get (fun _ => str "Couldn't connect to server") ⟨str "u:p"⟩
        (str "http://h/u") ⟨7, str "boom", [], [], 0⟩).resp.code = -1
    ∧ (get (fun _ => str "Couldn't connect to server") ⟨str "u:p"⟩
        (str "http://h/u") ⟨7, str "boom", [], [], 0⟩).resp.body
      = str "Failed to query. CURL error: " ++ str "Couldn't connect to server"
        ++ str " DETAIL: " ++ str "boom" :=
  ⟨by decide,
   (transportFailure_response (fun _ => str "Couldn't connect to server")
     ⟨str "u:p"⟩ (str "http://h/u") (str "text/plain") (str "d")
     ⟨7, str "boom", [], [], 0⟩ (by decide)).1.1,
   (transportFailure_response (fun _ => str "Couldn't connect to server")
     ⟨str "u:p"⟩ (str "http://h/u") (str "text/plain") (str "d")
     ⟨7, str "boom", [], [], 0⟩ (by decide)).1.2⟩

/-- Claim C6 as stated is false: `ptreeHasChild` resolves the name as a
'.'-separated boost path, so `"a.b"` is reported present in a tree whose
only direct child is `"a"`. -/
theorem claim6_refuted :
    ptreeHasChild
        (Ptree.mk [] [(str "a", Ptree.mk [] [(str "b", Ptree.mk (str "x") [])])])
        (str "a.b") = true
    ∧ isDirectChild
        (Ptree.mk [] [(str "a", Ptree.mk [] [(str "b", Ptree.mk (str "x") [])])])
        (str "a.b") = false :=
  ⟨by decide, by decide⟩

/-- Claim C6 (amended): for every tree and every name not containing the
path separator `'.'`, `ptreeHasChild` returns true iff the name names a
direct child; a name containing `'.'` is instead resolved as a
'.'-separated descendant path. -/
theorem ptreeHasChild_direct (t : Ptree) (name : List Char)
    (h : '.' ∉ name) : ptreeHasChild t name = isDirectChild t name := by
  have hsplit := splitDots_no_dot name h
  simp only [ptreeHasChild, get_child_optional, hsplit]
  cases hf : findChild t name with
  | none =>
    have hs := findChild_isSome t name
    rw [hf] at hs
    simp [getChildSegs, hf, ← hs]
  | some c =>
    have hs := findChild_isSome t name
    rw [hf] at hs
    simp [getChildSegs, hf, ← hs]

/-- Witness for the amended C6 at a dot-free name. -/
theorem ptreeHasChild_direct_witness :
    ('.' ∉ str "a")
    ∧ ptreeHasChild
        (Ptree.mk [] [(str "a", Ptree.mk [] [(str "b", Ptree.mk (str "x") [])])])
        (str "a")
      = isDirectChild
          (Ptree.mk [] [(str "a", Ptree.mk [] [(str "b", Ptree.mk (str "x") [])])])
          (str "a") :=
  ⟨by decide,
   ptreeHasChild_direct
     (Ptree.mk [] [(str "a", Ptree.mk [] [(str "b", Ptree.mk (str "x") [])])])
     (str "a") (by decide)⟩

end HttpClient
